import Mathlib

/-!
Verification of the recursive-descent semver-range parser (`src/parser.rs`).

The parser itself (`Parser::new`, `pop`, `peek`, `skip_whitespace`,
`comma_predicate`, `component`, `numeric`, `dot_component`, `dot_numeric`,
`identifier`, `parts`, `pre`, `plus_build_metadata`, `op`, `predicate`,
`range`, `version`) is translated function-by-function from the source.

The token source (lexer) and the produced data types (`Token`, `Identifier`,
`Op`, `Predicate`, `VersionReq`, `Version`) live outside the provided source
tree, so they are modelled from the specification: the lexer yields
`Token`-or-lexical-error values one at a time over the alphabet of numeric
literals, alphanumeric identifier text, the fixed punctuation and operator
symbols, whitespace runs, and the wildcard markers; any other character is a
lexical error.
-/

namespace Semver

/-- Modelled from the spec: a lexical error reported by the token source for a
character outside the recognized alphabet.  The parser never inspects the
payload; it wraps and forwards it verbatim. -/
inductive LexError where
  | unexpectedChar (c : Char)
deriving DecidableEq, Repr

/-- Modelled from the spec: one lexical unit.  Numeric literal, alphanumeric
identifier text, the fixed punctuation/operator symbols, a whitespace run
(payload positions irrelevant to the parser, which matches them with
wildcards), and the wildcard marker `*`; the `x`/`X` wildcard forms arrive as
alphanumeric text and are recognized by `Token.is_wildcard`. -/
inductive Token where
  | Eq | Gt | GtEq | Lt | LtEq | Tilde | Caret
  | Dot | Comma | Hyphen | Plus | Or | Star
  | Whitespace
  | Numeric (n : Nat)
  | AlphaNumeric (s : String)
deriving DecidableEq, Repr

/-- Modelled from the spec: the wildcard markers are `*`, `x` and `X`. -/
def Token.is_wildcard : Token → Bool
  | Token.Star => true
  | Token.AlphaNumeric s => s = "x" || s = "X"
  | _ => false

/-- Modelled from the spec: a pre-release / build-metadata list element is
either a bare non-negative integer or an alphanumeric string. -/
inductive Identifier where
  | AlphaNumeric (s : String)
  | Numeric (n : Nat)
deriving DecidableEq, Repr

/-- Modelled from the spec: which position a derived wildcard operator refers
to. -/
inductive WildcardVersion where
  | Minor
  | Patch
deriving DecidableEq, Repr

/-- Modelled from the spec: the compatible operator is either the explicit
caret or the implicit default. -/
inductive CompatibleOp where
  | Caret
  | Default_
deriving DecidableEq, Repr

/-- Modelled from the spec: the predicate operator. -/
inductive Op where
  | Ex | Gt | GtEq | Lt | LtEq | Tilde
  | Compatible (c : CompatibleOp)
  | Wildcard (w : WildcardVersion)
deriving DecidableEq, Repr

/-- Modelled from the spec: one atomic version constraint.  Build metadata is
not stored (there is no field for it). -/
structure Predicate where
  op : Op
  major : Nat
  minor : Option Nat
  patch : Option Nat
  pre : List Identifier
deriving DecidableEq, Repr

/-- Modelled from the spec: an ordered, AND-combined sequence of predicates. -/
structure VersionReq where
  predicates : List Predicate
deriving DecidableEq, Repr

/-- Modelled from the spec: a concrete version; both the pre-release list and
the build-metadata list are stored. -/
structure Version where
  major : Nat
  minor : Nat
  patch : Nat
  pre : List Identifier
  build : List Identifier
deriving DecidableEq, Repr

/-- Parse errors, translated from `parser.rs` (`enum Error`). -/
inductive Error where
  | UnexpectedEnd
  | UnexpectedToken (t : Token)
  | Lexer (e : LexError)
  | MoreInput (ts : List Token)
  | EmptyPredicate
  | EmptyRange
deriving DecidableEq, Repr

/-- Split a list into its longest prefix satisfying `p` and the remainder. -/
def spanList (p : Char → Bool) : List Char → List Char × List Char
  | [] => ([], [])
  | c :: cs =>
    if p c then
      let (r, rest) := spanList p cs
      (c :: r, rest)
    else ([], c :: cs)

/-- Decimal value of a digit run. -/
def digitsToNat (l : List Char) : Nat :=
  l.foldl (fun a c => a * 10 + (c.toNat - 48)) 0

/-- Character class of identifier text (letters and digits). -/
def isIdentChar (c : Char) : Bool := c.isAlpha || c.isDigit

/-- Character class of whitespace. -/
def isWsChar (c : Char) : Bool := c = ' ' || c = '\t' || c = '\n' || c = '\r'

/-- Modelled from the spec: the token source.  Produces the token stream of an
input, stopping at the first lexical error (the parser never consumes past an
error, since every pull propagates it).  The fuel argument only drives
structural recursion; each step consumes at least one character, so fuel equal
to the input length is always sufficient. -/
def lexChars : Nat → List Char → List (Except LexError Token)
  | 0, _ => []
  | _, [] => []
  | fuel + 1, c :: cs =>
    if isWsChar c then
      let (_, rest) := spanList isWsChar (c :: cs)
      Except.ok Token.Whitespace :: lexChars fuel rest
    else if isIdentChar c then
      let (run, rest) := spanList isIdentChar (c :: cs)
      let tok :=
        if run.all Char.isDigit then Token.Numeric (digitsToNat run)
        else Token.AlphaNumeric (String.mk run)
      Except.ok tok :: lexChars fuel rest
    else
      match c, cs with
      | '*', cs => Except.ok Token.Star :: lexChars fuel cs
      | '.', cs => Except.ok Token.Dot :: lexChars fuel cs
      | ',', cs => Except.ok Token.Comma :: lexChars fuel cs
      | '-', cs => Except.ok Token.Hyphen :: lexChars fuel cs
      | '+', cs => Except.ok Token.Plus :: lexChars fuel cs
      | '~', cs => Except.ok Token.Tilde :: lexChars fuel cs
      | '^', cs => Except.ok Token.Caret :: lexChars fuel cs
      | '=', cs => Except.ok Token.Eq :: lexChars fuel cs
      | '>', '=' :: cs2 => Except.ok Token.GtEq :: lexChars fuel cs2
      | '>', cs => Except.ok Token.Gt :: lexChars fuel cs
      | '<', '=' :: cs2 => Except.ok Token.LtEq :: lexChars fuel cs2
      | '<', cs => Except.ok Token.Lt :: lexChars fuel cs
      | '|', '|' :: cs2 => Except.ok Token.Or :: lexChars fuel cs2
      | c, _ => [Except.error (LexError.unexpectedChar c)]

/-- Modelled from the spec: tokenize a whole input. -/
def lexAll (s : String) : List (Except LexError Token) :=
  lexChars s.length s.data

deriving instance DecidableEq for Except

/-- Parser state, translated from `struct Parser`: the one-token lookahead
slot `c1` and the not-yet-pulled remainder of the token source. -/
structure Parser where
  c1 : Option Token
  rest : List (Except LexError Token)
deriving DecidableEq, Repr

/-- Number of tokens (or the trailing error) still reachable; used as fuel
for the iterative rules. -/
def Parser.size (p : Parser) : Nat :=
  (match p.c1 with | some _ => 1 | none => 0) + p.rest.length

/-- `Parser::new`: pull the first token (if any) into the lookahead slot;
fail if that first pull is a lexical error. -/
def Parser.new (s : String) : Except Error Parser :=
  match lexAll s with
  | [] => Except.ok ⟨none, []⟩
  | Except.ok t :: rest => Except.ok ⟨some t, rest⟩
  | Except.error e :: _ => Except.error (Error.Lexer e)

/-- `Parser::pop`: refill the lookahead slot from the source first
(propagating a lexical error immediately), then hand out the previous
lookahead token, or `UnexpectedEnd` if the slot was empty. -/
def Parser.pop (p : Parser) : Except Error (Token × Parser) :=
  match p.rest with
  | Except.error e :: _ => Except.error (Error.Lexer e)
  | Except.ok u :: tl =>
    match p.c1 with
    | some t => Except.ok (t, ⟨some u, tl⟩)
    | none => Except.error Error.UnexpectedEnd
  | [] =>
    match p.c1 with
    | some t => Except.ok (t, ⟨none, []⟩)
    | none => Except.error Error.UnexpectedEnd

/-- `Parser::skip_whitespace`: consume the lookahead if it is whitespace. -/
def Parser.skip_whitespace (p : Parser) : Except Error Parser :=
  match p.c1 with
  | some Token.Whitespace => do
    let (_, p1) ← p.pop
    pure p1
  | _ => Except.ok p

/-- `Parser::component`: pop one token; numeric yields its value, a wildcard
yields `none`, anything else is `UnexpectedToken`. -/
def Parser.component (p : Parser) : Except Error (Option Nat × Parser) := do
  let (t, p1) ← p.pop
  match t with
  | Token.Numeric n => pure (some n, p1)
  | t => if t.is_wildcard then pure ((none : Option Nat), p1)
         else Except.error (Error.UnexpectedToken t)

/-- `Parser::numeric`: pop one token; only numeric is accepted. -/
def Parser.numeric (p : Parser) : Except Error (Nat × Parser) := do
  let (t, p1) ← p.pop
  match t with
  | Token.Numeric n => pure (n, p1)
  | t => Except.error (Error.UnexpectedToken t)

/-- `Parser::dot_component`: if the lookahead is not a dot, consume nothing
and return `(none, false)`; otherwise consume the dot and parse a component,
the boolean signalling that the component was a wildcard. -/
def Parser.dot_component (p : Parser) :
    Except Error ((Option Nat × Bool) × Parser) :=
  match p.c1 with
  | some Token.Dot => do
    let (_, p1) ← p.pop
    let (n, p2) ← p1.component
    pure ((n, n.isNone), p2)
  | _ => Except.ok (((none : Option Nat), false), p)

/-- `Parser::dot_numeric`: a mandatory dot followed by a mandatory numeric. -/
def Parser.dot_numeric (p : Parser) : Except Error (Nat × Parser) := do
  let (t, p1) ← p.pop
  match t with
  | Token.Dot => p1.numeric
  | t => Except.error (Error.UnexpectedToken t)

/-- `Parser::identifier`: alphanumeric text or a numeric literal. -/
def Parser.identifier (p : Parser) : Except Error (Identifier × Parser) := do
  let (t, p1) ← p.pop
  match t with
  | Token.AlphaNumeric s => pure (Identifier.AlphaNumeric s, p1)
  | Token.Numeric n => pure (Identifier.Numeric n, p1)
  | t => Except.error (Error.UnexpectedToken t)

/-- The loop of `Parser::parts`: while the lookahead is a dot, consume it and
parse another identifier.  Fuel only drives the recursion; every iteration
consumes two tokens and spends one fuel, so fuel equal to `Parser.size` is
always sufficient. -/
def Parser.partsLoop : Nat → Parser → Except Error (List Identifier × Parser)
  | 0, p => Except.ok ([], p)
  | fuel + 1, p =>
    match p.c1 with
    | some Token.Dot => do
      let (_, p1) ← p.pop
      let (id, p2) ← p1.identifier
      let (ids, p3) ← Parser.partsLoop fuel p2
      pure (id :: ids, p3)
    | _ => Except.ok ([], p)

/-- `Parser::parts`: one identifier, then dot-separated further ones. -/
def Parser.parts (p : Parser) : Except Error (List Identifier × Parser) := do
  let (id, p1) ← p.identifier
  let (ids, p2) ← Parser.partsLoop p1.size p1
  pure (id :: ids, p2)

/-- `Parser::pre`: if the lookahead is a hyphen, consume it and parse parts;
otherwise the list is empty. -/
def Parser.pre (p : Parser) : Except Error (List Identifier × Parser) :=
  match p.c1 with
  | some Token.Hyphen => do
    let (_, p1) ← p.pop
    p1.parts
  | _ => Except.ok ([], p)

/-- `Parser::plus_build_metadata`: same shape as `pre`, triggered by plus. -/
def Parser.plus_build_metadata (p : Parser) :
    Except Error (List Identifier × Parser) :=
  match p.c1 with
  | some Token.Plus => do
    let (_, p1) ← p.pop
    p1.parts
  | _ => Except.ok ([], p)

/-- The peek-match of `Parser::op`: which explicit operator a token denotes. -/
def explicitOp : Token → Option Op
  | Token.Eq => some Op.Ex
  | Token.Gt => some Op.Gt
  | Token.GtEq => some Op.GtEq
  | Token.Lt => some Op.Lt
  | Token.LtEq => some Op.LtEq
  | Token.Tilde => some Op.Tilde
  | Token.Caret => some (Op.Compatible CompatibleOp.Caret)
  | _ => none

/-- `Parser::op`: peek; on an explicit operator token consume it and trailing
whitespace, otherwise consume nothing and yield the default compatible
operator. -/
def Parser.op (p : Parser) : Except Error (Op × Parser) :=
  match p.c1 with
  | none => Except.ok (Op.Compatible CompatibleOp.Default_, p)
  | some t =>
    match explicitOp t with
    | none => Except.ok (Op.Compatible CompatibleOp.Default_, p)
    | some o => do
      let (_, p1) ← p.pop
      let p2 ← p1.skip_whitespace
      pure (o, p2)

/-- `Parser::predicate`: empty lookahead means `none`; otherwise operator,
major component (wildcard major short-circuits to `none`), two dotted
components, pre-release, wildcard-to-operator derivation (minor assignment
then patch assignment), and a parsed-but-discarded build-metadata suffix. -/
def Parser.predicate (p : Parser) :
    Except Error (Option Predicate × Parser) :=
  match p.c1 with
  | none => Except.ok ((none : Option Predicate), p)
  | some _ => do
    let (op0, p1) ← p.op
    let (mj, p2) ← p1.component
    match mj with
    | none => pure ((none : Option Predicate), p2)
    | some major => do
      let ((minor, minorWild), p3) ← p2.dot_component
      let ((patch, patchWild), p4) ← p3.dot_component
      let (pre, p5) ← p4.pre
      let op1 := if minorWild then Op.Wildcard WildcardVersion.Minor else op0
      let op2 := if patchWild then Op.Wildcard WildcardVersion.Patch else op1
      let (_, p6) ← p5.plus_build_metadata
      pure (some { op := op2, major := major, minor := minor,
                   patch := patch, pre := pre }, p6)

/-- `Parser::comma_predicate` (with the `has_ws_separator!` macro expanded):
skip whitespace; without a comma lookahead return `none`; with one, consume
it, skip whitespace, and parse a predicate, promoting a `none` predicate to
the `EmptyPredicate` error. -/
def Parser.comma_predicate (p : Parser) :
    Except Error (Option Predicate × Parser) := do
  let p1 ← p.skip_whitespace
  match p1.c1 with
  | some Token.Comma => do
    let (_, p2) ← p1.pop
    let p3 ← p2.skip_whitespace
    let (pr, p4) ← p3.predicate
    match pr with
    | some pr => pure (some pr, p4)
    | none => Except.error Error.EmptyPredicate
  | _ => pure ((none : Option Predicate), p1)

/-- The loop of `Parser::range`: accumulate comma-predicates until one is
absent.  Fuel only drives the recursion; a present comma-predicate consumes at
least the comma token, so fuel equal to `Parser.size` is always sufficient. -/
def Parser.rangeLoop : Nat → Parser → Except Error (List Predicate × Parser)
  | 0, p => Except.ok ([], p)
  | fuel + 1, p => do
    let (pr, p1) ← p.comma_predicate
    match pr with
    | none => pure (([] : List Predicate), p1)
    | some pr => do
      let (prs, p2) ← Parser.rangeLoop fuel p1
      pure (pr :: prs, p2)

/-- `Parser::range`: one predicate (if present), then comma-predicates. -/
def Parser.range (p : Parser) : Except Error (VersionReq × Parser) := do
  let (pr, p1) ← p.predicate
  match pr with
  | none => pure (VersionReq.mk [], p1)
  | some pr => do
    let (prs, p2) ← Parser.rangeLoop p1.size p1
    pure (VersionReq.mk (pr :: prs), p2)

/-- `Parser::version`: whitespace, mandatory major, two mandatory dotted
numerics, pre-release and build metadata (both stored), whitespace. -/
def Parser.version (p : Parser) : Except Error (Version × Parser) := do
  let p1 ← p.skip_whitespace
  let (major, p2) ← p1.numeric
  let (minor, p3) ← p2.dot_numeric
  let (patch, p4) ← p3.dot_numeric
  let (pre, p5) ← p4.pre
  let (build, p6) ← p5.plus_build_metadata
  let p7 ← p6.skip_whitespace
  pure (Version.mk major minor patch pre build, p7)

/-- Construct a parser over an input and run `predicate`. -/
def parsePredicate (s : String) :
    Except Error (Option Predicate × Parser) :=
  (Parser.new s).bind Parser.predicate

/-- Construct a parser over an input and run `comma_predicate`. -/
def parseCommaPredicate (s : String) :
    Except Error (Option Predicate × Parser) :=
  (Parser.new s).bind Parser.comma_predicate

/-- Construct a parser over an input and run `range`. -/
def parseRange (s : String) : Except Error (VersionReq × Parser) :=
  (Parser.new s).bind Parser.range

/-- Construct a parser over an input and run `version`. -/
def parseVersion (s : String) : Except Error (Version × Parser) :=
  (Parser.new s).bind Parser.version

/-- All pending pulls of the token source succeed (no lexical error ahead). -/
def streamOk (l : List (Except LexError Token)) : Bool :=
  l.all fun r => match r with | Except.ok _ => true | Except.error _ => false

lemma pure_eq_ok {α : Type} (a : α) : (pure a : Except Error α) = Except.ok a :=
  rfl

lemma ok_bind {α β : Type} (a : α) (f : α → Except Error β) :
    (Except.ok a : Except Error α) >>= f = f a := rfl

lemma error_bind {α β : Type} (e : Error) (f : α → Except Error β) :
    (Except.error e : Except Error α) >>= f = Except.error e := rfl

lemma ok_map {α β : Type} (a : α) (f : α → β) :
    f <$> (Except.ok a : Except Error α) = Except.ok (f a) := rfl

lemma error_map {α β : Type} (e : Error) (f : α → β) :
    f <$> (Except.error e : Except Error α) = Except.error e := rfl

lemma Parser.component_c1_none {p : Parser} (hc : p.c1 = none) :
    ∀ r, p.component ≠ Except.ok r := by
  intro r h
  rcases p with ⟨c1, rest⟩
  simp only at hc
  subst hc
  rcases rest with _ | ⟨r0, tl⟩
  · simp [Parser.component, Parser.pop, error_bind] at h
  · rcases r0 with t | e <;>
      simp [Parser.component, Parser.pop, error_bind] at h

/-- Any successful run of `predicate` that reaches the build-metadata step
produces exactly the predicate assembled from the intermediate results, with
the patch-wildcard override applied after the minor-wildcard override. -/
lemma predicate_chain
    (p p1 p2 p3 p4 p5 p6 : Parser) (o : Op) (major : Nat)
    (minor patch : Option Nat) (minorWild patchWild : Bool)
    (prel bmeta : List Identifier)
    (hop : p.op = Except.ok (o, p1))
    (hmaj : p1.component = Except.ok (some major, p2))
    (hmn : p2.dot_component = Except.ok ((minor, minorWild), p3))
    (hpt : p3.dot_component = Except.ok ((patch, patchWild), p4))
    (hpre : p4.pre = Except.ok (prel, p5))
    (hb : p5.plus_build_metadata = Except.ok (bmeta, p6)) :
    p.predicate = Except.ok (some
      { op := if patchWild then Op.Wildcard WildcardVersion.Patch
              else if minorWild then Op.Wildcard WildcardVersion.Minor else o,
        major := major, minor := minor, patch := patch, pre := prel }, p6) := by
  obtain ⟨t, hc⟩ : ∃ t, p.c1 = some t := by
    cases hc : p.c1 with
    | some t => exact ⟨t, rfl⟩
    | none =>
      exfalso
      have hop' : p.op = Except.ok (Op.Compatible CompatibleOp.Default_, p) := by
        simp [Parser.op, hc]
      rw [hop'] at hop
      simp only [Except.ok.injEq, Prod.mk.injEq] at hop
      exact Parser.component_c1_none (hop.2 ▸ hc) _ hmaj
  simp only [Parser.predicate, hc, hop, ok_bind, hmaj, hmn, hpt, hpre, hb,
    pure_eq_ok]

lemma Parser.dot_component_no_dot {p : Parser} (h : p.c1 ≠ some Token.Dot) :
    p.dot_component = Except.ok ((none, false), p) := by
  rcases hc : p.c1 with _ | u
  · simp [Parser.dot_component, hc]
  · cases u <;> simp [Parser.dot_component, hc] <;> exact absurd hc h

lemma Parser.dot_component_ok {p : Parser} {mn : Option Nat} {w : Bool}
    {p' : Parser} (h : p.dot_component = Except.ok ((mn, w), p')) :
    (mn = none ∧ w = false ∧ p' = p ∧ p.c1 ≠ some Token.Dot) ∨
    (p.c1 = some Token.Dot ∧ w = mn.isNone) := by
  by_cases hc : p.c1 = some Token.Dot
  · right
    refine ⟨hc, ?_⟩
    simp only [Parser.dot_component, hc] at h
    cases hpop : p.pop with
    | error e => rw [hpop, error_bind] at h; exact absurd h (by simp)
    | ok tp =>
      obtain ⟨t, q⟩ := tp
      rw [hpop, ok_bind] at h
      cases hcomp : q.component with
      | error e => rw [hcomp] at h; exact absurd h (by simp [error_bind])
      | ok np =>
        obtain ⟨n, q2⟩ := np
        rw [hcomp, ok_bind] at h
        simp only [pure_eq_ok, Except.ok.injEq, Prod.mk.injEq] at h
        rw [← h.1.1, ← h.1.2]
  · left
    rw [Parser.dot_component_no_dot hc] at h
    simp only [Except.ok.injEq, Prod.mk.injEq] at h
    exact ⟨h.1.1.symm, h.1.2.symm, h.2.symm, hc⟩

/-- Claim C1 (amended): in `predicate()` the wildcard-to-operator derivation
assigns `Wildcard(Minor)` first and `Wildcard(Patch)` second, so when both the
minor and the patch dotted-components signal a wildcard the later patch
assignment wins: the effective operator is `Wildcard(Patch)`.
`Wildcard(Minor)` results exactly when the minor component signaled a wildcard
and the patch component did not. -/
theorem predicate_wildcard_last_wins
    (p p1 p2 p3 p4 p5 p6 : Parser) (o : Op) (major : Nat)
    (minor patch : Option Nat) (minorWild patchWild : Bool)
    (prel bmeta : List Identifier)
    (hop : p.op = Except.ok (o, p1))
    (hmaj : p1.component = Except.ok (some major, p2))
    (hmn : p2.dot_component = Except.ok ((minor, minorWild), p3))
    (hpt : p3.dot_component = Except.ok ((patch, patchWild), p4))
    (hpre : p4.pre = Except.ok (prel, p5))
    (hb : p5.plus_build_metadata = Except.ok (bmeta, p6)) :
    p.predicate = Except.ok (some
      { op := if patchWild then Op.Wildcard WildcardVersion.Patch
              else if minorWild then Op.Wildcard WildcardVersion.Minor else o,
        major := major, minor := minor, patch := patch, pre := prel }, p6) :=
  predicate_chain p p1 p2 p3 p4 p5 p6 o major minor patch minorWild patchWild
    prel bmeta hop hmaj hmn hpt hpre hb

/-- Claim C1 witness: on the state for `"1.*.*"` both wildcard flags are set
and the returned operator is `Wildcard(Patch)`. -/
theorem predicate_wildcard_last_wins_wit :
    Parser.predicate ⟨some (Token.Numeric 1),
      [Except.ok Token.Dot, Except.ok Token.Star,
       Except.ok Token.Dot, Except.ok Token.Star]⟩
      = Except.ok (some
          { op := Op.Wildcard WildcardVersion.Patch, major := 1,
            minor := none, patch := none, pre := [] }, ⟨none, []⟩) :=
  predicate_wildcard_last_wins
    ⟨some (Token.Numeric 1),
      [Except.ok Token.Dot, Except.ok Token.Star,
       Except.ok Token.Dot, Except.ok Token.Star]⟩
    ⟨some (Token.Numeric 1),
      [Except.ok Token.Dot, Except.ok Token.Star,
       Except.ok Token.Dot, Except.ok Token.Star]⟩
    ⟨some Token.Dot, [Except.ok Token.Star, Except.ok Token.Dot,
       Except.ok Token.Star]⟩
    ⟨some Token.Dot, [Except.ok Token.Star]⟩
    ⟨none, []⟩ ⟨none, []⟩ ⟨none, []⟩
    (Op.Compatible CompatibleOp.Default_) 1 none none true true [] []
    rfl rfl rfl rfl rfl rfl

/-- Claim C1 counterexample: on the input `"1.*.*"`, whose minor
dotted-component signals a wildcard, the returned operator is
`Wildcard(Patch)`, not `Wildcard(Minor)` as claimed. -/
theorem predicate_wildcard_minor_priority_cex :
    parsePredicate "1.*.*" = Except.ok (some
      { op := Op.Wildcard WildcardVersion.Patch, major := 1,
        minor := none, patch := none, pre := [] }, ⟨none, []⟩) ∧
    Op.Wildcard WildcardVersion.Patch ≠ Op.Wildcard WildcardVersion.Minor :=
  ⟨rfl, by decide⟩

/-- Claim C2 (amended): a `Predicate` returned by `predicate()` with an
absent minor either has an absent patch as well, or carries the operator
`Wildcard(Minor)` — the latter is the wildcard-minor case, where a numeric
patch may still be stored (the code's own TODO notes that combinations like
`1.*.0` are not rejected). -/
theorem predicate_minor_none_patch
    (p p' : Parser) (pr : Predicate)
    (h : p.predicate = Except.ok (some pr, p'))
    (hm : pr.minor = none) :
    pr.patch = none ∨ pr.op = Op.Wildcard WildcardVersion.Minor := by
  cases hc : p.c1 with
  | none => simp only [Parser.predicate, hc] at h; exact absurd h (by simp)
  | some t =>
    simp only [Parser.predicate, hc] at h
    cases hop : p.op with
    | error e => simp only [hop, error_bind] at h; exact absurd h (by simp)
    | ok op1 =>
      obtain ⟨o, p1⟩ := op1
      simp only [hop, ok_bind] at h
      cases hmaj : p1.component with
      | error e => simp only [hmaj, error_bind] at h; exact absurd h (by simp)
      | ok c =>
        obtain ⟨mj, p2⟩ := c
        simp only [hmaj, ok_bind] at h
        cases mj with
        | none => exact absurd h (by simp [pure_eq_ok])
        | some major =>
          cases hmn : p2.dot_component with
          | error e => simp only [hmn, error_bind] at h; exact absurd h (by simp)
          | ok mnp =>
            obtain ⟨⟨mnv, mnw⟩, p3⟩ := mnp
            simp only [hmn, ok_bind] at h
            cases hpt : p3.dot_component with
            | error e => simp only [hpt, error_bind] at h; exact absurd h (by simp)
            | ok ptp =>
              obtain ⟨⟨ptv, ptw⟩, p4⟩ := ptp
              simp only [hpt, ok_bind] at h
              cases hpre : p4.pre with
              | error e => simp only [hpre, error_bind] at h; exact absurd h (by simp)
              | ok prp =>
                obtain ⟨prl, p5⟩ := prp
                simp only [hpre, ok_bind] at h
                cases hb : p5.plus_build_metadata with
                | error e => simp only [hb, error_bind] at h; exact absurd h (by simp)
                | ok bp =>
                  obtain ⟨bm, p6⟩ := bp
                  simp only [hb, ok_bind, pure_eq_ok, Except.ok.injEq,
                    Prod.mk.injEq, Option.some.injEq] at h
                  obtain ⟨hpr, hp6⟩ := h
                  subst hpr
                  have hm2 : mnv = none := hm
                  subst hm2
                  rcases Parser.dot_component_ok hmn with
                    ⟨h1, h2, h3, h4⟩ | ⟨h1, h2⟩
                  · subst h2
                    subst h3
                    rw [Parser.dot_component_no_dot h4] at hpt
                    simp only [Except.ok.injEq, Prod.mk.injEq] at hpt
                    left
                    exact hpt.1.1.symm
                  · simp only [Option.isNone_none] at h2
                    subst h2
                    cases ptw with
                    | false => right; rfl
                    | true =>
                      left
                      rcases Parser.dot_component_ok hpt with
                        ⟨g1, g2, g3, g4⟩ | ⟨g1, g2⟩
                      · exact absurd g2 (by simp)
                      · cases ptv with
                        | none => rfl
                        | some k => exact absurd g2 (by simp)

lemma Parser.skip_whitespace_not_ws {p : Parser}
    (h : p.c1 ≠ some Token.Whitespace) : p.skip_whitespace = Except.ok p := by
  rcases hc : p.c1 with _ | u
  · simp [Parser.skip_whitespace, hc]
  · cases u <;> simp [Parser.skip_whitespace, hc] <;> exact absurd hc h

lemma Parser.pop_ne_ep {p : Parser} {e : Error}
    (h : p.pop = Except.error e) : e ≠ Error.EmptyPredicate := by
  intro he
  subst he
  rcases p with ⟨c1, rest⟩
  rcases rest with _ | ⟨r0, tl⟩
  · rcases c1 with _ | t <;> simp [Parser.pop] at h
  · rcases r0 with le | u
    · simp [Parser.pop] at h
    · rcases c1 with _ | t <;> simp [Parser.pop] at h

lemma Parser.skip_whitespace_ne_ep {p : Parser} {e : Error}
    (h : p.skip_whitespace = Except.error e) : e ≠ Error.EmptyPredicate := by
  by_cases hw : p.c1 = some Token.Whitespace
  · simp only [Parser.skip_whitespace, hw] at h
    cases hp : p.pop with
    | error e2 =>
      rw [hp, error_bind] at h
      simp only [Except.error.injEq] at h
      exact h ▸ Parser.pop_ne_ep hp
    | ok tp => rw [hp, ok_bind] at h; exact absurd h (by simp [pure_eq_ok])
  · rw [Parser.skip_whitespace_not_ws hw] at h
    exact absurd h (by simp)

lemma Parser.component_ne_ep {p : Parser} {e : Error}
    (h : p.component = Except.error e) : e ≠ Error.EmptyPredicate := by
  intro he
  subst he
  cases hp : p.pop with
  | error e2 =>
    simp only [Parser.component, hp, error_bind, Except.error.injEq] at h
    exact Parser.pop_ne_ep hp h
  | ok tp =>
    obtain ⟨t, q⟩ := tp
    simp only [Parser.component, hp, ok_bind] at h
    cases t <;> simp [Token.is_wildcard, pure_eq_ok] at h <;> split at h <;>
      simp at h

lemma Parser.identifier_ne_ep {p : Parser} {e : Error}
    (h : p.identifier = Except.error e) : e ≠ Error.EmptyPredicate := by
  intro he
  subst he
  cases hp : p.pop with
  | error e2 =>
    simp only [Parser.identifier, hp, error_bind, Except.error.injEq] at h
    exact Parser.pop_ne_ep hp h
  | ok tp =>
    obtain ⟨t, q⟩ := tp
    simp only [Parser.identifier, hp, ok_bind] at h
    cases t <;> simp [pure_eq_ok] at h

lemma Parser.dot_component_ne_ep {p : Parser} {e : Error}
    (h : p.dot_component = Except.error e) : e ≠ Error.EmptyPredicate := by
  by_cases hc : p.c1 = some Token.Dot
  · simp only [Parser.dot_component, hc] at h
    cases hp : p.pop with
    | error e2 =>
      rw [hp, error_bind] at h
      simp only [Except.error.injEq] at h
      exact h ▸ Parser.pop_ne_ep hp
    | ok tp =>
      obtain ⟨t, q⟩ := tp
      rw [hp, ok_bind] at h
      cases hcm : q.component with
      | error e3 =>
        rw [hcm, error_bind] at h
        simp only [Except.error.injEq] at h
        exact h ▸ Parser.component_ne_ep hcm
      | ok np => rw [hcm, ok_bind] at h; exact absurd h (by simp [pure_eq_ok])
  · rw [Parser.dot_component_no_dot hc] at h
    exact absurd h (by simp)

lemma Parser.partsLoop_ne_ep {fuel : Nat} {p : Parser} {e : Error}
    (h : Parser.partsLoop fuel p = Except.error e) :
    e ≠ Error.EmptyPredicate := by
  induction fuel generalizing p with
  | zero => simp [Parser.partsLoop] at h
  | succ n ih =>
    by_cases hc : p.c1 = some Token.Dot
    · simp only [Parser.partsLoop, hc] at h
      cases hp : p.pop with
      | error e2 =>
        rw [hp, error_bind] at h
        simp only [Except.error.injEq] at h
        exact h ▸ Parser.pop_ne_ep hp
      | ok tp =>
        obtain ⟨t, q⟩ := tp
        rw [hp, ok_bind] at h
        cases hid : q.identifier with
        | error e3 =>
          rw [hid, error_bind] at h
          simp only [Except.error.injEq] at h
          exact h ▸ Parser.identifier_ne_ep hid
        | ok iq =>
          obtain ⟨idv, q2⟩ := iq
          rw [hid, ok_bind] at h
          cases hl : Parser.partsLoop n q2 with
          | error e4 =>
            rw [hl] at h
            simp only [error_bind, error_map, Except.error.injEq] at h
            exact ih (h ▸ hl)
          | ok lq =>
            rw [hl] at h
            simp only [ok_bind, ok_map, pure_eq_ok] at h
            exact absurd h (by simp)
    · rcases hcc : p.c1 with _ | u
      · simp only [Parser.partsLoop, hcc] at h
        exact absurd h (by simp)
      · cases u <;> simp only [Parser.partsLoop, hcc] at h <;>
          first
            | exact absurd hcc hc
            | exact absurd h (by simp)

lemma Parser.parts_ne_ep {p : Parser} {e : Error}
    (h : p.parts = Except.error e) : e ≠ Error.EmptyPredicate := by
  cases hid : p.identifier with
  | error e2 =>
    simp only [Parser.parts, hid, error_bind, Except.error.injEq] at h
    exact h ▸ Parser.identifier_ne_ep hid
  | ok iq =>
    obtain ⟨idv, q⟩ := iq
    simp only [Parser.parts, hid, ok_bind] at h
    cases hl : Parser.partsLoop q.size q with
    | error e3 =>
      rw [hl] at h
      simp only [error_bind, error_map, Except.error.injEq] at h
      exact h ▸ Parser.partsLoop_ne_ep hl
    | ok lq =>
      rw [hl] at h
      simp only [ok_bind, ok_map, pure_eq_ok] at h
      exact absurd h (by simp)

lemma Parser.pre_ne_ep {p : Parser} {e : Error}
    (h : p.pre = Except.error e) : e ≠ Error.EmptyPredicate := by
  by_cases hc : p.c1 = some Token.Hyphen
  · simp only [Parser.pre, hc] at h
    cases hp : p.pop with
    | error e2 =>
      rw [hp, error_bind] at h
      simp only [Except.error.injEq] at h
      exact h ▸ Parser.pop_ne_ep hp
    | ok tp =>
      obtain ⟨t, q⟩ := tp
      rw [hp, ok_bind] at h
      exact Parser.parts_ne_ep h
  · rcases hcc : p.c1 with _ | u
    · simp only [Parser.pre, hcc] at h
      exact absurd h (by simp)
    · cases u <;> simp only [Parser.pre, hcc] at h <;>
        first
          | exact absurd hcc hc
          | exact absurd h (by simp)

lemma Parser.plus_build_metadata_ne_ep {p : Parser} {e : Error}
    (h : p.plus_build_metadata = Except.error e) : e ≠ Error.EmptyPredicate := by
  by_cases hc : p.c1 = some Token.Plus
  · simp only [Parser.plus_build_metadata, hc] at h
    cases hp : p.pop with
    | error e2 =>
      rw [hp, error_bind] at h
      simp only [Except.error.injEq] at h
      exact h ▸ Parser.pop_ne_ep hp
    | ok tp =>
      obtain ⟨t, q⟩ := tp
      rw [hp, ok_bind] at h
      exact Parser.parts_ne_ep h
  · rcases hcc : p.c1 with _ | u
    · simp only [Parser.plus_build_metadata, hcc] at h
      exact absurd h (by simp)
    · cases u <;> simp only [Parser.plus_build_metadata, hcc] at h <;>
        first
          | exact absurd hcc hc
          | exact absurd h (by simp)

lemma Parser.op_ne_ep {p : Parser} {e : Error}
    (h : p.op = Except.error e) : e ≠ Error.EmptyPredicate := by
  rcases hc : p.c1 with _ | t
  · simp only [Parser.op, hc] at h
    exact absurd h (by simp)
  · simp only [Parser.op, hc] at h
    cases ho : explicitOp t with
    | none => rw [ho] at h; exact absurd h (by simp)
    | some o =>
      rw [ho] at h
      cases hp : p.pop with
      | error e2 =>
        rw [hp] at h
        simp only [error_bind, error_map, Except.error.injEq] at h
        exact h ▸ Parser.pop_ne_ep hp
      | ok tp =>
        obtain ⟨t2, q⟩ := tp
        rw [hp] at h
        simp only [ok_bind, ok_map] at h
        cases hw : q.skip_whitespace with
        | error e3 =>
          rw [hw] at h
          simp only [error_bind, error_map, Except.error.injEq] at h
          exact h ▸ Parser.skip_whitespace_ne_ep hw
        | ok q2 =>
          rw [hw] at h
          simp only [ok_bind, ok_map, pure_eq_ok] at h
          exact absurd h (by simp)

lemma Parser.predicate_ne_ep {p : Parser} {e : Error}
    (h : p.predicate = Except.error e) : e ≠ Error.EmptyPredicate := by
  rcases hc : p.c1 with _ | t
  · simp only [Parser.predicate, hc] at h
    exact absurd h (by simp)
  · simp only [Parser.predicate, hc] at h
    cases hop : p.op with
    | error e2 =>
      rw [hop, error_bind] at h
      simp only [Except.error.injEq] at h
      exact h ▸ Parser.op_ne_ep hop
    | ok oq =>
      obtain ⟨o, p1⟩ := oq
      rw [hop, ok_bind] at h
      cases hmaj : p1.component with
      | error e3 =>
        simp only [hmaj, error_bind, Except.error.injEq] at h
        exact h ▸ Parser.component_ne_ep hmaj
      | ok mq =>
        obtain ⟨mj, p2⟩ := mq
        simp only [hmaj, ok_bind] at h
        cases mj with
        | none => exact absurd h (by simp [pure_eq_ok])
        | some major =>
          cases hmn : p2.dot_component with
          | error e4 =>
            simp only [hmn, error_bind, Except.error.injEq] at h
            exact h ▸ Parser.dot_component_ne_ep hmn
          | ok mnq =>
            obtain ⟨⟨mnv, mnw⟩, p3⟩ := mnq
            simp only [hmn, ok_bind] at h
            cases hpt : p3.dot_component with
            | error e5 =>
              simp only [hpt, error_bind, Except.error.injEq] at h
              exact h ▸ Parser.dot_component_ne_ep hpt
            | ok ptq =>
              obtain ⟨⟨ptv, ptw⟩, p4⟩ := ptq
              simp only [hpt, ok_bind] at h
              cases hpre : p4.pre with
              | error e6 =>
                simp only [hpre, error_bind, Except.error.injEq] at h
                exact h ▸ Parser.pre_ne_ep hpre
              | ok prq =>
                obtain ⟨prl, p5⟩ := prq
                simp only [hpre, ok_bind] at h
                cases hb : p5.plus_build_metadata with
                | error e7 =>
                  simp only [hb, error_bind, Except.error.injEq] at h
                  exact h ▸ Parser.plus_build_metadata_ne_ep hb
                | ok bq =>
                  obtain ⟨bm, p6⟩ := bq
                  simp only [hb, ok_bind] at h
                  exact absurd h (by simp [pure_eq_ok])

/-- Claim C2 counterexample: on `"1.*.2"` the returned predicate has
`minor = none` but `patch = some 2`, so the claimed invariant fails. -/
theorem predicate_minor_none_patch_cex :
    ¬ (∀ pr q, parsePredicate "1.*.2" = Except.ok (some pr, q) →
        pr.minor = none → pr.patch = none) := by
  intro hcl
  have h := hcl
    { op := Op.Wildcard WildcardVersion.Minor, major := 1,
      minor := none, patch := some 2, pre := [] } ⟨none, []⟩ rfl rfl
  exact absurd h (by decide)

/-- Claim C2 witness: the amended invariant evaluated on the predicate
returned for `"1.*"`. -/
theorem predicate_minor_none_patch_wit :
    ({ op := Op.Wildcard WildcardVersion.Minor, major := 1, minor := none,
       patch := none, pre := [] } : Predicate).patch = none ∨
    ({ op := Op.Wildcard WildcardVersion.Minor, major := 1, minor := none,
       patch := none, pre := [] } : Predicate).op
      = Op.Wildcard WildcardVersion.Minor :=
  predicate_minor_none_patch
    ⟨some (Token.Numeric 1), [Except.ok Token.Dot, Except.ok Token.Star]⟩
    ⟨none, []⟩
    { op := Op.Wildcard WildcardVersion.Minor, major := 1, minor := none,
      patch := none, pre := [] }
    rfl rfl

/-- Claim C3 (amended): `op()` never fails with `UnexpectedEnd` or
`UnexpectedToken`: for every parser state it either returns Ok — the matched
explicit operator or the Default compatible operator — or forwards a lexer
error raised while eagerly refilling the lookahead slot (or while skipping
trailing whitespace). -/
theorem op_ok_or_lexer (p : Parser) :
    (∃ o q, p.op = Except.ok (o, q)) ∨
    (∃ e, p.op = Except.error (Error.Lexer e)) := by
  obtain ⟨c1, rest⟩ := p
  cases c1 with
  | none => exact Or.inl ⟨_, _, rfl⟩
  | some t =>
    cases ho : explicitOp t with
    | none =>
      exact Or.inl ⟨Op.Compatible CompatibleOp.Default_, ⟨some t, rest⟩,
        by simp [Parser.op, ho]⟩
    | some o =>
      cases rest with
      | nil =>
        exact Or.inl ⟨o, ⟨none, []⟩, by
          simp [Parser.op, ho, Parser.pop, Parser.skip_whitespace, ok_bind,
            ok_map, pure_eq_ok]⟩
      | cons r tl =>
        cases r with
        | error e =>
          exact Or.inr ⟨e, by
            simp [Parser.op, ho, Parser.pop, error_bind, error_map]⟩
        | ok u =>
          by_cases hu : u = Token.Whitespace
          · subst hu
            cases tl with
            | nil =>
              exact Or.inl ⟨o, ⟨none, []⟩, by
                simp [Parser.op, ho, Parser.pop, Parser.skip_whitespace,
                  ok_bind, ok_map, pure_eq_ok]⟩
            | cons r2 tl2 =>
              cases r2 with
              | error e2 =>
                exact Or.inr ⟨e2, by
                  simp [Parser.op, ho, Parser.pop, Parser.skip_whitespace,
                    ok_bind, ok_map, error_bind, error_map]⟩
              | ok v =>
                exact Or.inl ⟨o, ⟨some v, tl2⟩, by
                  simp [Parser.op, ho, Parser.pop, Parser.skip_whitespace,
                    ok_bind, ok_map, pure_eq_ok]⟩
          · have hws : (⟨some u, tl⟩ : Parser).skip_whitespace
                = Except.ok ⟨some u, tl⟩ :=
              Parser.skip_whitespace_not_ws (by simp [hu])
            exact Or.inl ⟨o, ⟨some u, tl⟩, by
              simp [Parser.op, ho, Parser.pop, hws, ok_bind, ok_map,
                pure_eq_ok]⟩

/-- Claim C3 witness: the dichotomy evaluated on the state holding a caret
lookahead over an exhausted token source. -/
theorem op_ok_or_lexer_wit :
    (∃ o q, Parser.op ⟨some Token.Caret, []⟩ = Except.ok (o, q)) ∨
    (∃ e, Parser.op ⟨some Token.Caret, []⟩
      = Except.error (Error.Lexer e)) :=
  op_ok_or_lexer ⟨some Token.Caret, []⟩

/-- Claim C3 counterexample: in the state produced by `Parser::new` on
`"^?"` — caret lookahead with a lexical error pending in the source — `op()`
returns a forwarded lexer error rather than Ok. -/
theorem op_never_fails_cex :
    Parser.new "^?" = Except.ok
      ⟨some Token.Caret, [Except.error (LexError.unexpectedChar '?')]⟩ ∧
    Parser.op
      ⟨some Token.Caret, [Except.error (LexError.unexpectedChar '?')]⟩
      = Except.error (Error.Lexer (LexError.unexpectedChar '?')) :=
  ⟨rfl, rfl⟩

/-- Claim C4 (amended): after a successful whitespace skip,
`comma_predicate()` returns `Ok(None)` when the lookahead is not a comma;
when a comma is present it consumes it, skips whitespace and parses a
predicate, promoting a `None` predicate to `Err(EmptyPredicate)` and passing
a present predicate through as `Ok(Some(..))`; and conversely
`Err(EmptyPredicate)` arises exactly from that comma-then-`None` path.  (A
lexer error surfacing from the eager lookahead refill can additionally make
`comma_predicate()` fail even when no comma is present.) -/
theorem comma_predicate_cases (p p1 : Parser)
    (h : p.skip_whitespace = Except.ok p1) :
    (p1.c1 ≠ some Token.Comma → p.comma_predicate = Except.ok (none, p1)) ∧
    (∀ tk p2 p3 r, p1.c1 = some Token.Comma → p1.pop = Except.ok (tk, p2) →
      p2.skip_whitespace = Except.ok p3 → p3.predicate = Except.ok r →
      p.comma_predicate = (match r.1 with
        | some pr => Except.ok (some pr, r.2)
        | none => Except.error Error.EmptyPredicate)) ∧
    (p.comma_predicate = Except.error Error.EmptyPredicate →
      p1.c1 = some Token.Comma ∧
      ∃ tk p2 p3 p4, p1.pop = Except.ok (tk, p2) ∧
        p2.skip_whitespace = Except.ok p3 ∧
        p3.predicate = Except.ok (none, p4)) := by
  refine ⟨?_, ?_, ?_⟩
  · intro hne
    simp only [Parser.comma_predicate, h, ok_bind]
    rcases hc : p1.c1 with _ | u
    · rfl
    · cases u <;> first | exact absurd hc hne | rfl
  · intro tk p2 p3 r hcomma hpop hws hpred
    obtain ⟨pq, p4⟩ := r
    simp only [Parser.comma_predicate, h, ok_bind, hcomma, hpop, hws, hpred]
    cases pq <;> rfl
  · intro hcp
    simp only [Parser.comma_predicate, h, ok_bind] at hcp
    rcases hc : p1.c1 with _ | u
    · rw [hc] at hcp
      exact absurd hcp (by simp [pure_eq_ok])
    · cases u with
      | Comma =>
        refine ⟨rfl, ?_⟩
        rw [hc] at hcp
        cases hpop : p1.pop with
        | error e =>
          rw [hpop] at hcp
          simp only [error_bind, Except.error.injEq] at hcp
          exact absurd hcp (Parser.pop_ne_ep hpop)
        | ok tp =>
          obtain ⟨tk, p2⟩ := tp
          rw [hpop] at hcp
          simp only [ok_bind] at hcp
          cases hws : p2.skip_whitespace with
          | error e =>
            rw [hws] at hcp
            simp only [error_bind, Except.error.injEq] at hcp
            exact absurd hcp (Parser.skip_whitespace_ne_ep hws)
          | ok p3 =>
            rw [hws] at hcp
            simp only [ok_bind] at hcp
            cases hpred : p3.predicate with
            | error e =>
              rw [hpred] at hcp
              simp only [error_bind, Except.error.injEq] at hcp
              exact absurd hcp (Parser.predicate_ne_ep hpred)
            | ok rq =>
              obtain ⟨pq, p4⟩ := rq
              rw [hpred] at hcp
              simp only [ok_bind] at hcp
              cases pq with
              | some pr => exact absurd hcp (by simp [pure_eq_ok])
              | none => exact ⟨tk, p2, p3, p4, rfl, hws, hpred⟩
      | Eq => exact absurd hcp (by rw [hc]; simp [pure_eq_ok])
      | Gt => exact absurd hcp (by rw [hc]; simp [pure_eq_ok])
      | GtEq => exact absurd hcp (by rw [hc]; simp [pure_eq_ok])
      | Lt => exact absurd hcp (by rw [hc]; simp [pure_eq_ok])
      | LtEq => exact absurd hcp (by rw [hc]; simp [pure_eq_ok])
      | Tilde => exact absurd hcp (by rw [hc]; simp [pure_eq_ok])
      | Caret => exact absurd hcp (by rw [hc]; simp [pure_eq_ok])
      | Dot => exact absurd hcp (by rw [hc]; simp [pure_eq_ok])
      | Hyphen => exact absurd hcp (by rw [hc]; simp [pure_eq_ok])
      | Plus => exact absurd hcp (by rw [hc]; simp [pure_eq_ok])
      | Or => exact absurd hcp (by rw [hc]; simp [pure_eq_ok])
      | Star => exact absurd hcp (by rw [hc]; simp [pure_eq_ok])
      | Whitespace => exact absurd hcp (by rw [hc]; simp [pure_eq_ok])
      | Numeric n => exact absurd hcp (by rw [hc]; simp [pure_eq_ok])
      | AlphaNumeric s => exact absurd hcp (by rw [hc]; simp [pure_eq_ok])

/-- Claim C4 witness: the comma-then-predicate path evaluated on the state
for `",1.0"`; the comma is consumed and the predicate after it is returned. -/
theorem comma_predicate_cases_wit :
    Parser.comma_predicate ⟨some Token.Comma,
      [Except.ok (Token.Numeric 1), Except.ok Token.Dot,
       Except.ok (Token.Numeric 0)]⟩
      = Except.ok (some
          { op := Op.Compatible CompatibleOp.Default_, major := 1,
            minor := some 0, patch := none, pre := [] },
          ⟨none, []⟩) :=
  (comma_predicate_cases
    ⟨some Token.Comma,
      [Except.ok (Token.Numeric 1), Except.ok Token.Dot,
       Except.ok (Token.Numeric 0)]⟩
    ⟨some Token.Comma,
      [Except.ok (Token.Numeric 1), Except.ok Token.Dot,
       Except.ok (Token.Numeric 0)]⟩ rfl).2.1
    Token.Comma
    ⟨some (Token.Numeric 1), [Except.ok Token.Dot,
      Except.ok (Token.Numeric 0)]⟩
    ⟨some (Token.Numeric 1), [Except.ok Token.Dot,
      Except.ok (Token.Numeric 0)]⟩
    (some
      { op := Op.Compatible CompatibleOp.Default_, major := 1,
        minor := some 0, patch := none, pre := [] }, ⟨none, []⟩)
    rfl rfl rfl rfl

/-- Claim C4 counterexample: in the state produced by `Parser::new` on
`" ?"` — a whitespace lookahead with a lexical error pending, and no comma
anywhere — `comma_predicate()` fails with a forwarded lexer error instead of
returning `Ok(None)`. -/
theorem comma_predicate_cex :
    Parser.new " ?" = Except.ok
      ⟨some Token.Whitespace, [Except.error (LexError.unexpectedChar '?')]⟩ ∧
    Parser.comma_predicate
      ⟨some Token.Whitespace, [Except.error (LexError.unexpectedChar '?')]⟩
      = Except.error (Error.Lexer (LexError.unexpectedChar '?')) :=
  ⟨rfl, rfl⟩

/-- Claim C5: on empty input, `predicate()` yields `Ok(None)`, `range()`
yields a `VersionReq` with an empty predicate list, and `version()` fails
with `UnexpectedEnd`. -/
theorem empty_input_behavior :
    parsePredicate "" = Except.ok (none, ⟨none, []⟩) ∧
    parseRange "" = Except.ok (⟨[]⟩, ⟨none, []⟩) ∧
    parseVersion "" = Except.error Error.UnexpectedEnd :=
  ⟨rfl, rfl, rfl⟩

lemma Parser.pop_ok_of_streamOk {p : Parser} (h : streamOk p.rest = true) :
    ∀ t, p.c1 = some t → ∃ q, p.pop = Except.ok (t, q) := by
  intro t hc
  rcases p with ⟨c1, rest⟩
  simp only at hc
  subst hc
  rcases rest with _ | ⟨r0, tl⟩
  · exact ⟨⟨none, []⟩, rfl⟩
  · rcases r0 with le | u
    · simp [streamOk] at h
    · exact ⟨⟨some u, tl⟩, rfl⟩

lemma Parser.pop_none_of_streamOk {p : Parser} (h : streamOk p.rest = true)
    (hc : p.c1 = none) : p.pop = Except.error Error.UnexpectedEnd := by
  rcases p with ⟨c1, rest⟩
  simp only at hc
  subst hc
  rcases rest with _ | ⟨r0, tl⟩
  · rfl
  · rcases r0 with le | u
    · simp [streamOk] at h
    · rfl

/-- Claim C6 (amended): when no lexical error is pending in the token
source, `component()` pops one token and maps a numeric token `n` to
`Ok(Some(n))`, a wildcard token to `Ok(None)`, any other token `t` to
`Err(UnexpectedToken(t))`, and an empty lookahead to `Err(UnexpectedEnd)`.
(When the eager lookahead refill hits a lexical error, `component()` instead
forwards that `Lexer` error, even over a numeric lookahead.) -/
theorem component_cases (p : Parser) (h : streamOk p.rest = true) :
    (∀ n, p.c1 = some (Token.Numeric n) →
      ∃ q, p.component = Except.ok (some n, q)) ∧
    (∀ t, p.c1 = some t → t.is_wildcard = true →
      ∃ q, p.component = Except.ok (none, q)) ∧
    (∀ t, p.c1 = some t → t.is_wildcard = false →
      (∀ n, t ≠ Token.Numeric n) →
      p.component = Except.error (Error.UnexpectedToken t)) ∧
    (p.c1 = none → p.component = Except.error Error.UnexpectedEnd) := by
  refine ⟨?_, ?_, ?_, ?_⟩
  · intro n hc
    obtain ⟨q, hq⟩ := Parser.pop_ok_of_streamOk h _ hc
    exact ⟨q, by simp [Parser.component, hq, ok_bind, pure_eq_ok]⟩
  · intro t hc hw
    obtain ⟨q, hq⟩ := Parser.pop_ok_of_streamOk h t hc
    refine ⟨q, ?_⟩
    cases t with
    | Eq => exact absurd hw (by simp [Token.is_wildcard])
    | Gt => exact absurd hw (by simp [Token.is_wildcard])
    | GtEq => exact absurd hw (by simp [Token.is_wildcard])
    | Lt => exact absurd hw (by simp [Token.is_wildcard])
    | LtEq => exact absurd hw (by simp [Token.is_wildcard])
    | Tilde => exact absurd hw (by simp [Token.is_wildcard])
    | Caret => exact absurd hw (by simp [Token.is_wildcard])
    | Dot => exact absurd hw (by simp [Token.is_wildcard])
    | Comma => exact absurd hw (by simp [Token.is_wildcard])
    | Hyphen => exact absurd hw (by simp [Token.is_wildcard])
    | Plus => exact absurd hw (by simp [Token.is_wildcard])
    | Or => exact absurd hw (by simp [Token.is_wildcard])
    | Whitespace => exact absurd hw (by simp [Token.is_wildcard])
    | Numeric n => exact absurd hw (by simp [Token.is_wildcard])
    | Star =>
      simp [Parser.component, hq, ok_bind, pure_eq_ok, Token.is_wildcard]
    | AlphaNumeric s =>
      simp [Parser.component, hq, ok_bind, pure_eq_ok, hw]
  · intro t hc hwf hnn
    obtain ⟨q, hq⟩ := Parser.pop_ok_of_streamOk h t hc
    cases t with
    | Eq => simp [Parser.component, hq, ok_bind, Token.is_wildcard]
    | Gt => simp [Parser.component, hq, ok_bind, Token.is_wildcard]
    | GtEq => simp [Parser.component, hq, ok_bind, Token.is_wildcard]
    | Lt => simp [Parser.component, hq, ok_bind, Token.is_wildcard]
    | LtEq => simp [Parser.component, hq, ok_bind, Token.is_wildcard]
    | Tilde => simp [Parser.component, hq, ok_bind, Token.is_wildcard]
    | Caret => simp [Parser.component, hq, ok_bind, Token.is_wildcard]
    | Dot => simp [Parser.component, hq, ok_bind, Token.is_wildcard]
    | Comma => simp [Parser.component, hq, ok_bind, Token.is_wildcard]
    | Hyphen => simp [Parser.component, hq, ok_bind, Token.is_wildcard]
    | Plus => simp [Parser.component, hq, ok_bind, Token.is_wildcard]
    | Or => simp [Parser.component, hq, ok_bind, Token.is_wildcard]
    | Whitespace => simp [Parser.component, hq, ok_bind, Token.is_wildcard]
    | Numeric n => exact absurd rfl (hnn n)
    | Star => exact absurd hwf (by simp [Token.is_wildcard])
    | AlphaNumeric s =>
      simp [Parser.component, hq, ok_bind, hwf]
  · intro hc
    simp [Parser.component, Parser.pop_none_of_streamOk h hc, error_bind]

/-- Claim C6 witness: the numeric case evaluated on a lookahead holding the
token `5` over an exhausted source. -/
theorem component_cases_wit :
    ∃ q, Parser.component ⟨some (Token.Numeric 5), []⟩
      = Except.ok (some 5, q) :=
  (component_cases ⟨some (Token.Numeric 5), []⟩ rfl).1 5 rfl

/-- Claim C6 counterexample: in the state produced by `Parser::new` on
`"1?"` the lookahead holds the numeric token `1`, yet `component()` fails
with a forwarded lexer error instead of returning `Ok(Some(1))`. -/
theorem component_numeric_cex :
    Parser.new "1?" = Except.ok
      ⟨some (Token.Numeric 1), [Except.error (LexError.unexpectedChar '?')]⟩ ∧
    Parser.component
      ⟨some (Token.Numeric 1), [Except.error (LexError.unexpectedChar '?')]⟩
      = Except.error (Error.Lexer (LexError.unexpectedChar '?')) :=
  ⟨rfl, rfl⟩

/-- Claim C7: `range()` on `">=1.2.3, <2.0.0"` returns exactly two
predicates, in source order: `(GtEq, 1, 2, 3)` then `(Lt, 2, 0, 0)`. -/
theorem range_two_predicates :
    parseRange ">=1.2.3, <2.0.0" = Except.ok
      (⟨[{ op := Op.GtEq, major := 1, minor := some 2, patch := some 3,
           pre := [] },
         { op := Op.Lt, major := 2, minor := some 0, patch := some 0,
           pre := [] }]⟩, ⟨none, []⟩) := rfl

/-- Claim C8: `range()` on `",1.0"` fails with `UnexpectedToken` carrying
the comma token — a leading comma is not a valid start of a predicate. -/
theorem range_leading_comma :
    parseRange ",1.0" = Except.error (Error.UnexpectedToken Token.Comma) :=
  rfl

lemma predicate_chain_build_err
    (p p1 p2 p3 p4 p5 : Parser) (o : Op) (major : Nat)
    (minor patch : Option Nat) (minorWild patchWild : Bool)
    (prel : List Identifier) (e : Error)
    (hop : p.op = Except.ok (o, p1))
    (hmaj : p1.component = Except.ok (some major, p2))
    (hmn : p2.dot_component = Except.ok ((minor, minorWild), p3))
    (hpt : p3.dot_component = Except.ok ((patch, patchWild), p4))
    (hpre : p4.pre = Except.ok (prel, p5))
    (hb : p5.plus_build_metadata = Except.error e) :
    p.predicate = Except.error e := by
  obtain ⟨t, hc⟩ : ∃ t, p.c1 = some t := by
    cases hc : p.c1 with
    | some t => exact ⟨t, rfl⟩
    | none =>
      exfalso
      have hop2 : p.op = Except.ok (Op.Compatible CompatibleOp.Default_, p) := by
        simp [Parser.op, hc]
      rw [hop2] at hop
      simp only [Except.ok.injEq, Prod.mk.injEq] at hop
      exact Parser.component_c1_none (hop.2 ▸ hc) _ hmaj
  simp only [Parser.predicate, hc, hop, ok_bind, hmaj, hmn, hpt, hpre, hb,
    error_bind]

/-- Claim C9: build metadata is parsed but never stored in a `Predicate`:
for any run reaching the build-metadata step, the returned `Predicate` is the
same whatever identifier list the suffix produces (the list is universally
quantified and absent from the result), while a failing build suffix fails
the whole predicate parse.  Concretely, `"1.0+build.5"` parses to exactly the
result of `"1.0"`, `"1.0+"` (nothing after the plus) still fails, and
`version()` on `"1.0.0-alpha.1+build.5"` stores the build identifier list. -/
theorem predicate_discards_build
    (p p1 p2 p3 p4 p5 : Parser) (o : Op) (major : Nat)
    (minor patch : Option Nat) (minorWild patchWild : Bool)
    (prel : List Identifier)
    (hop : p.op = Except.ok (o, p1))
    (hmaj : p1.component = Except.ok (some major, p2))
    (hmn : p2.dot_component = Except.ok ((minor, minorWild), p3))
    (hpt : p3.dot_component = Except.ok ((patch, patchWild), p4))
    (hpre : p4.pre = Except.ok (prel, p5)) :
    (∀ bmeta p6, p5.plus_build_metadata = Except.ok (bmeta, p6) →
      p.predicate = Except.ok (some
        { op := if patchWild then Op.Wildcard WildcardVersion.Patch
                else if minorWild then Op.Wildcard WildcardVersion.Minor
                else o,
          major := major, minor := minor, patch := patch, pre := prel },
        p6)) ∧
    (∀ e, p5.plus_build_metadata = Except.error e →
      p.predicate = Except.error e) ∧
    parsePredicate "1.0+build.5" = parsePredicate "1.0" ∧
    parsePredicate "1.0+" = Except.error Error.UnexpectedEnd ∧
    parseVersion "1.0.0-alpha.1+build.5" = Except.ok
      (⟨1, 0, 0, [Identifier.AlphaNumeric "alpha", Identifier.Numeric 1],
        [Identifier.AlphaNumeric "build", Identifier.Numeric 5]⟩,
       ⟨none, []⟩) := by
  refine ⟨?_, ?_, rfl, rfl, rfl⟩
  · intro bmeta p6 hb
    exact predicate_chain p p1 p2 p3 p4 p5 p6 o major minor patch minorWild
      patchWild prel bmeta hop hmaj hmn hpt hpre hb
  · intro e hb
    exact predicate_chain_build_err p p1 p2 p3 p4 p5 o major minor patch
      minorWild patchWild prel e hop hmaj hmn hpt hpre hb

/-- Claim C9 witness: the chain instantiated on the state for
`"1.0+build.5"`; the build list `[build, 5]` is parsed (consumed) but the
returned predicate carries only the pre-plus prefix fields. -/
theorem predicate_discards_build_wit :
    Parser.predicate ⟨some (Token.Numeric 1),
      [Except.ok Token.Dot, Except.ok (Token.Numeric 0), Except.ok Token.Plus,
       Except.ok (Token.AlphaNumeric "build"), Except.ok Token.Dot,
       Except.ok (Token.Numeric 5)]⟩
      = Except.ok (some
          { op := Op.Compatible CompatibleOp.Default_, major := 1,
            minor := some 0, patch := none, pre := [] }, ⟨none, []⟩) :=
  (predicate_discards_build
    ⟨some (Token.Numeric 1),
      [Except.ok Token.Dot, Except.ok (Token.Numeric 0), Except.ok Token.Plus,
       Except.ok (Token.AlphaNumeric "build"), Except.ok Token.Dot,
       Except.ok (Token.Numeric 5)]⟩
    ⟨some (Token.Numeric 1),
      [Except.ok Token.Dot, Except.ok (Token.Numeric 0), Except.ok Token.Plus,
       Except.ok (Token.AlphaNumeric "build"), Except.ok Token.Dot,
       Except.ok (Token.Numeric 5)]⟩
    ⟨some Token.Dot,
      [Except.ok (Token.Numeric 0), Except.ok Token.Plus,
       Except.ok (Token.AlphaNumeric "build"), Except.ok Token.Dot,
       Except.ok (Token.Numeric 5)]⟩
    ⟨some Token.Plus,
      [Except.ok (Token.AlphaNumeric "build"), Except.ok Token.Dot,
       Except.ok (Token.Numeric 5)]⟩
    ⟨some Token.Plus,
      [Except.ok (Token.AlphaNumeric "build"), Except.ok Token.Dot,
       Except.ok (Token.Numeric 5)]⟩
    ⟨some Token.Plus,
      [Except.ok (Token.AlphaNumeric "build"), Except.ok Token.Dot,
       Except.ok (Token.Numeric 5)]⟩
    (Op.Compatible CompatibleOp.Default_) 1 (some 0) none false false []
    rfl rfl rfl rfl rfl).1
    [Identifier.AlphaNumeric "build", Identifier.Numeric 5] ⟨none, []⟩ rfl

/-- Claim C10: because `pop()` eagerly refills the lookahead slot before
handing out the current token, a lexical error in the token immediately
following the tokens a rule needs surfaces as `Err(Lexer(..))` from that
rule even though the consumed prefix already forms a complete parse: over a
numeric lookahead with an error pending, `predicate()` fails with the lexer
error; concretely `"1.2.3"` parses fine while `"1.2.3?"` fails with
`Lexer` rather than returning the complete predicate `1.2.3`. -/
theorem predicate_eager_refill_lexer (n : Nat) (e : LexError)
    (tl : List (Except LexError Token)) :
    Parser.predicate ⟨some (Token.Numeric n), Except.error e :: tl⟩
      = Except.error (Error.Lexer e) ∧
    parsePredicate "1.2.3" = Except.ok (some
      { op := Op.Compatible CompatibleOp.Default_, major := 1,
        minor := some 2, patch := some 3, pre := [] }, ⟨none, []⟩) ∧
    parsePredicate "1.2.3?"
      = Except.error (Error.Lexer (LexError.unexpectedChar '?')) := by
  refine ⟨?_, rfl, rfl⟩
  simp [Parser.predicate, Parser.op, explicitOp, Parser.component,
    Parser.pop, ok_bind, error_bind]

/-- Claim C10 witness: the general refill fact evaluated at the token `7`
with a pending lexical error. -/
theorem predicate_eager_refill_lexer_wit :
    Parser.predicate ⟨some (Token.Numeric 7),
      [Except.error (LexError.unexpectedChar '!')]⟩
      = Except.error (Error.Lexer (LexError.unexpectedChar '!')) :=
  (predicate_eager_refill_lexer 7 (LexError.unexpectedChar '!') []).1

end Semver
